import Mathlib

/-!
# ava: the command dispatch pipeline of `ava.go`

A shallow embedding of `processText`, `routeResponse`, `handlerMain`,
`validateParams` and `checkRequiredEnvVars` from `src/ava/ava.go`, together
with the parts of the Go standard library they rely on (`strings.ToLower`,
`strconv.Atoi`, string slicing).

Go strings are byte sequences; they are modelled as lists of byte values.
The functions of package `main` that live in other files (`train`,
`classify`, `getUser`, `addContext`, `callPkg`, `saveStructuredInput`) and the
external collaborators (`language.Confused`, the Twilio client, the echo
response writer) are fields of an environment record: each takes the current
world state and returns its results with the next world state.  Every call
made by the modelled functions is recorded in a chronological trace.
-/

namespace Ava

/-! ## Go strings -/

/-- A Go string: its bytes. -/
abbrev GoString := List Nat

/-- The bytes of an ASCII literal (for ASCII text every character is one byte,
its code point). -/
def ascii (s : String) : GoString := s.toList.map Char.toNat

/-- The slice expression `s[lo:hi]`; `none` is the run-time panic
"slice bounds out of range". -/
def slice (s : GoString) (lo hi : Nat) : Option GoString :=
  if lo ≤ hi ∧ hi ≤ s.length then some ((s.take hi).drop lo) else none

/-- The slice expression `s[lo:]`; `none` is the run-time panic
"slice bounds out of range". -/
def sliceFrom (s : GoString) (lo : Nat) : Option GoString :=
  if lo ≤ s.length then some (s.drop lo) else none

/-! ## unicode/utf8 and strings.ToLower -/

/-- The rune `utf8.RuneError` (U+FFFD). -/
def RuneError : Nat := 65533

/-- A UTF-8 continuation byte. -/
def isCont (b : Nat) : Bool := 128 ≤ b && b ≤ 191

/-- Go `utf8.DecodeRuneInString`: the first rune of `s` and its width in bytes.
An invalid or truncated encoding yields `(RuneError, 1)`, the empty string
`(RuneError, 0)`. -/
def decodeRune : GoString → Nat × Nat
  | [] => (RuneError, 0)
  | b0 :: rest =>
    if b0 < 128 then (b0, 1)
    else if 194 ≤ b0 ∧ b0 ≤ 223 then
      match rest with
      | b1 :: _ =>
        if isCont b1 then ((b0 % 32) * 64 + b1 % 64, 2) else (RuneError, 1)
      | _ => (RuneError, 1)
    else if 224 ≤ b0 ∧ b0 ≤ 239 then
      match rest with
      | b1 :: b2 :: _ =>
        let lo := if b0 = 224 then 160 else 128
        let hi := if b0 = 237 then 159 else 191
        if lo ≤ b1 ∧ b1 ≤ hi ∧ isCont b2 then
          ((b0 % 16) * 4096 + (b1 % 64) * 64 + b2 % 64, 3)
        else (RuneError, 1)
      | _ => (RuneError, 1)
    else if 240 ≤ b0 ∧ b0 ≤ 244 then
      match rest with
      | b1 :: b2 :: b3 :: _ =>
        let lo := if b0 = 240 then 144 else 128
        let hi := if b0 = 244 then 143 else 191
        if lo ≤ b1 ∧ b1 ≤ hi ∧ isCont b2 ∧ isCont b3 then
          ((b0 % 8) * 262144 + (b1 % 64) * 4096 + (b2 % 64) * 64 + b3 % 64, 4)
        else (RuneError, 1)
      | _ => (RuneError, 1)
    else (RuneError, 1)

/-- Go `utf8.EncodeRune`: surrogates and values above U+10FFFF are written as
`RuneError`. -/
def encodeRune (r : Nat) : GoString :=
  if r < 128 then [r]
  else if r < 2048 then [192 + r / 64, 128 + r % 64]
  else if (55296 ≤ r ∧ r ≤ 57343) ∨ 1114111 < r then [239, 191, 189]
  else if r < 65536 then [224 + r / 4096, 128 + (r / 64) % 64, 128 + r % 64]
  else [240 + r / 262144, 128 + (r / 4096) % 64, 128 + (r / 64) % 64, 128 + r % 64]

/-- Lower-casing of one ASCII byte: `A`..`Z` move to `a`..`z`. -/
def lowerASCII (b : Nat) : Nat := if 65 ≤ b ∧ b ≤ 90 then b + 32 else b

/-- Go `unicode.ToLower`: ASCII runes are handled directly, the others go
through the case tables of package `unicode`, which are the parameter `tbl`. -/
def unicodeToLower (tbl : Nat → Nat) (r : Nat) : Nat :=
  if r ≤ 127 then lowerASCII r else tbl r

/-- The loop of Go `strings.Map`: decode a rune, write the mapped rune, go on
after the decoded bytes.  `fuel` bounds the number of runes. -/
def mapRunes (f : Nat → Nat) : Nat → GoString → GoString
  | 0, _ => []
  | _ + 1, [] => []
  | fuel + 1, b :: rest =>
    encodeRune (f (decodeRune (b :: rest)).1)
      ++ mapRunes f fuel ((b :: rest).drop (decodeRune (b :: rest)).2)

/-- Go `strings.ToLower(s)`, that is `strings.Map(unicode.ToLower, s)`.  A
string has at most as many runes as bytes, so `s.length` is enough fuel. -/
def ToLower (tbl : Nat → Nat) (s : GoString) : GoString :=
  mapRunes (unicodeToLower tbl) s.length s

/-! ## errors and strconv.Atoi -/

/-- The `Func` field of a `*strconv.NumError`.  `strconv.Atoi` reports its
failures under the name `ParseInt` up to Go 1.9 (it delegates to `ParseInt`)
and under the name `Atoi` from Go 1.10 on. -/
inductive NumFunc
  | ParseInt
  | Atoi
  deriving DecidableEq, Repr

/-- The `Err` field of a `*strconv.NumError`. -/
inductive NumCause
  | ErrSyntax
  | ErrRange
  deriving DecidableEq, Repr

/-- Go `error` values met by the pipeline.  Go compares errors by identity: the
package-level sentinels are their own constructors, an `errors.New` made inside
a function is `new`, and an error made elsewhere (database, transport, timeout)
is `foreign`. -/
inductive GoError
  | ErrInvalidCommand
  | ErrMissingPackage
  | ErrMissingUser
  | new (msg : String)
  | num (fn : NumFunc) (arg : GoString) (cause : NumCause)
  | foreign (tag : Nat)
  deriving DecidableEq, Repr

/-- The test `err.Error() == "strconv.ParseInt: parsing \"\": invalid syntax"`
of `validateParams`.  A `NumError` prints as
`"strconv." + Func + ": parsing " + Quote(Num) + ": " + Err`, and `Quote(Num)`
is `""` only for the empty `Num`, so the message equals the literal exactly when
the three fields are `ParseInt`, the empty string and `ErrSyntax`.  No other
error of the pipeline starts with `strconv.`. -/
def isEmptyParseIntMsg : GoError → Bool
  | .num .ParseInt [] .ErrSyntax => true
  | _ => false

/-- A byte that is a decimal digit. -/
def isDigit (b : Nat) : Bool := 48 ≤ b && b ≤ 57

/-- The number written by a string of decimal digits. -/
def digitsValue (s : GoString) : Nat := s.foldl (fun acc b => acc * 10 + (b - 48)) 0

/-- Go `strconv.Atoi(s)` on a 64-bit platform, as `ParseInt(s, 10, 0)`: an
optional sign, then one or more decimal digits; values outside the `int` range
are clamped and reported with `ErrRange`.  The result is the integer and the
error (`none` is `nil`); `fn` is the name the errors are reported under. -/
def Atoi (fn : NumFunc) (s : GoString) : Int × Option GoError :=
  match s with
  | [] => (0, some (.num fn s .ErrSyntax))
  | b :: rest =>
    let neg := b == 45
    let body := if b == 43 || b == 45 then rest else s
    if body.isEmpty || !body.all isDigit then (0, some (.num fn s .ErrSyntax))
    else
      let un := digitsValue body
      if !neg && 2 ^ 63 ≤ un then (2 ^ 63 - 1, some (.num fn s .ErrRange))
      else if neg && 2 ^ 63 < un then (-(2 ^ 63), some (.num fn s .ErrRange))
      else (if neg then -(un : Int) else (un : Int), none)

/-! ## checkRequiredEnvVars -/

/-- Source `checkRequiredEnvVars`, over the values of the environment variables
`PORT` and `BASE_URL` (`os.Getenv` gives the empty string for an unset one). -/
def checkRequiredEnvVars (fn : NumFunc) (port base : GoString) : Option GoError :=
  if (Atoi fn port).2 ≠ none then
    some (.new "PORT is not set to an integer")
  else
    let l := base.length
    if l = 0 then some (.new "BASE_URL not set")
    else if l < 4 ∨ slice base 0 4 ≠ some (ascii "http") then
      some (.new "BASE_URL invalid. Must include http/https")
    else none

/-! ## The request context and validateParams -/

/-- Why a run stopped with a Go run-time panic. -/
inductive PanicKind
  | sliceBounds
  | nilDereference
  | typeAssertion
  deriving DecidableEq, Repr

/-- The result of running Go code: it returns a value or panics. -/
inductive Outcome (α : Type)
  | ret (a : α)
  | panic (k : PanicKind)
  deriving DecidableEq, Repr

/-- A value of type `interface{}` kept in the echo context store. -/
inductive Value
  | nil
  | str (s : GoString)
  | int (n : Int)
  deriving DecidableEq, Repr

/-- The keys of the echo context store used by the handlers. -/
inductive Key
  | cmd
  | flexid
  | flexidtype
  | uid
  deriving DecidableEq, Repr

/-- The store of an `*echo.Context`: `c.Get(key)` is `c key`, and a key that was
never set reads as `nil`. -/
abbrev Context := Key → Value

/-- The call `c.Set(key, v)`. -/
def Context.set (c : Context) (k : Key) (v : Value) : Context :=
  fun k' => if k' = k then v else c k'

/-- The store before any `Set`. -/
def Context.empty : Context := fun _ => .nil

/-- Source `validateParams`.  The type assertions `c.Get(..).(string)` panic on
anything but a string, and `err.Error()` on a nil `err` is a nil dereference.
The result is `(uid, fid, fidT, err)`. -/
def validateParams (fn : NumFunc) (c : Context) :
    Outcome (Int × GoString × Int × Option GoError) :=
  match c .flexid with
  | .str fid =>
    match c .uid with
    | .str uidS =>
      match Atoi fn uidS with
      | (_, none) => .panic .nilDereference
      | (uid0, some e) =>
        if ¬ isEmptyParseIntMsg e then .ret (uid0, fid, 0, some e)
        else
          let uid : Int := 0
          match c .flexidtype with
          | .str fidTS =>
            match Atoi fn fidTS with
            | (fidT, none) => .ret (uid, fid, fidT, none)
            | (fidT, some e') =>
              if isEmptyParseIntMsg e' then .ret (uid, fid, 0, none)
              else .ret (uid, fid, fidT, some e')
          | _ => .panic .typeAssertion
    | _ => .panic .typeAssertion
  | _ => .panic .typeAssertion

/-! ## The pipeline -/

/-- The fields of `datatypes.Input` set by `processText`.  `SI` is the type of
the structured input produced by `classify`. -/
structure Input (SI : Type) where
  StructuredInput : SI
  UserId : Int
  FlexId : GoString
  FlexIdType : Int
  deriving DecidableEq, Repr

/-- What `train(bayes, text)` gives back. -/
structure TrainResult (σ : Type) where
  err : Option GoError
  world : σ

/-- What `classify(bayes, cmd)` gives back. -/
structure ClassifyResult (σ SI : Type) where
  si : SI
  err : Option GoError
  world : σ

/-- What `getUser(in)` gives back; `inp` is the input record after the call
(`in` is passed by pointer). -/
structure GetUserResult (σ SI U : Type) where
  user : U
  err : Option GoError
  inp : Input SI
  world : σ

/-- What `addContext(m)` gives back: the message to dispatch, the context flag,
the error, and the input record after the call. -/
structure AddContextResult (σ SI M : Type) where
  msg : M
  ctxAdded : Bool
  err : Option GoError
  inp : Input SI
  world : σ

/-- What `callPkg(m, ctxAdded)` gives back: reply, package name, route, error,
and the input record after the call. -/
structure CallPkgResult (σ SI R : Type) where
  reply : GoString
  pname : GoString
  route : R
  err : Option GoError
  inp : Input SI
  world : σ

/-- What `language.Confused()` gives back. -/
structure ConfusedResult (σ : Type) where
  reply : GoString
  world : σ

/-- What `saveStructuredInput(in, ret, pname, route)` gives back. -/
structure SaveResult (σ SI : Type) where
  err : Option GoError
  inp : Input SI
  world : σ

/-- What an outbound call (`tc.Messages.Send`, `c.HTML`) gives back. -/
structure SendResult (σ : Type) where
  err : Option GoError
  world : σ

/-- The collaborators of the pipeline.  `σ` is the state of the world (the
classifier `bayes`, the database, the network), `SI` the structured input, `U`
the user record, `M` the message handed to a package, `R` the route. -/
structure Env (σ SI U M R : Type) where
  /-- The name `strconv.Atoi` reports its errors under. -/
  atoiFunc : NumFunc
  /-- The case tables of package `unicode`, for runes above ASCII. -/
  unicodeLower : Nat → Nat
  /-- The constant `datatypes.FlexIdTypePhone`. -/
  FlexIdTypePhone : Int
  train : σ → GoString → TrainResult σ
  classify : σ → GoString → ClassifyResult σ SI
  getUser : σ → Input SI → GetUserResult σ SI U
  /-- The call `addContext(m)` for `m = &Message{User: u, Input: in}`. -/
  addContext : σ → U → Input SI → AddContextResult σ SI M
  callPkg : σ → M → Bool → Input SI → CallPkgResult σ SI R
  Confused : σ → ConfusedResult σ
  saveStructuredInput : σ → Input SI → GoString → GoString → R → SaveResult σ SI
  /-- The call `tc.Messages.Send(sender, dest, params)` with `params.Body = body`. -/
  send : σ → GoString → GoString → GoString → SendResult σ
  /-- The call `c.HTML(status, format)`. -/
  html : σ → Nat → GoString → SendResult σ

/-- One step of a run, in the order of execution.  Calls record their
arguments and what they returned. -/
inductive Event (SI U M R : Type)
  | train (text : GoString) (err : Option GoError)
  | classify (cmd : GoString) (si : SI) (err : Option GoError)
  | log (what : String)
  | validateParams
  | getUser (inp : Input SI) (user : U) (err : Option GoError)
  | addContext (user : U) (inp : Input SI) (msg : M) (ctxAdded : Bool)
      (err : Option GoError)
  | callPkg (msg : M) (ctxAdded : Bool) (reply pname : GoString) (route : R)
      (err : Option GoError)
  | confused (reply : GoString)
  | save (inp : Input SI) (reply pname : GoString) (route : R)
      (err : Option GoError)
  | routeResponse (inp : Input SI) (reply : GoString)
  | send (sender dest body : GoString) (err : Option GoError)
  | html (status : Nat) (format : GoString) (err : Option GoError)
  deriving DecidableEq, Repr

/-- A finished run: what was returned (or the panic), the calls made, and the
world left behind. -/
structure Run (σ SI U M R α : Type) where
  result : Outcome α
  trace : List (Event SI U M R)
  world : σ

/-- The event is a call of `callPkg`. -/
def Event.isCallPkg {SI U M R : Type} : Event SI U M R → Bool
  | .callPkg .. => true
  | _ => false

/-- The event is a call of `language.Confused`. -/
def Event.isConfused {SI U M R : Type} : Event SI U M R → Bool
  | .confused .. => true
  | _ => false

/-- The event is a call of `saveStructuredInput`. -/
def Event.isSave {SI U M R : Type} : Event SI U M R → Bool
  | .save .. => true
  | _ => false

/-- The event is a call of `routeResponse`. -/
def Event.isRoute {SI U M R : Type} : Event SI U M R → Bool
  | .routeResponse .. => true
  | _ => false

/-- The event is an outbound SMS send. -/
def Event.isSend {SI U M R : Type} : Event SI U M R → Bool
  | .send .. => true
  | _ => false

/-- The event is a write of the response body. -/
def Event.isHtml {SI U M R : Type} : Event SI U M R → Bool
  | .html .. => true
  | _ => false

section Pipeline

variable {σ SI U M R : Type}

/-- The keyword tested by `processText`. -/
def trainKeyword : GoString := ascii "train"

/-- The condition `len(cmd) >= 5 && strings.ToLower(cmd)[0:5] == "train"` of
source `processText`; `none` is the panic of an out-of-range `[0:5]`. -/
def trainGuard (tbl : Nat → Nat) (cmd : GoString) : Option Bool :=
  if 5 ≤ cmd.length then
    (slice (ToLower tbl cmd) 0 5).map (fun p => decide (p = trainKeyword))
  else some false

/-- The sender number of `routeResponse`. -/
def avaNumber : GoString := ascii "+14242971568"

/-- Source `routeResponse`: anything but the phone channel is answered with a
fresh error, the phone channel with an outbound send whose error is returned. -/
def routeResponse (env : Env σ SI U M R) (w : σ) (inp : Input SI) (ret : GoString) :
    Run σ SI U M R (Option GoError) :=
  if inp.FlexIdType ≠ env.FlexIdTypePhone then
    ⟨.ret (some (.new "route type not implemented")), [.routeResponse inp ret], w⟩
  else
    let r := env.send w avaNumber inp.FlexId ret
    ⟨.ret r.err,
      [.routeResponse inp ret, .send avaNumber inp.FlexId ret r.err, .log "resp"],
      r.world⟩

/-- The end of source `processText` (from `in.StructuredInput = si` on): `inp`
is the input record after `callPkg`, `ret` the reply to persist and route, `tr`
the trace so far. -/
def persistAndRoute (env : Env σ SI U M R) (w : σ) (inp : Input SI) (si : SI)
    (ret pname : GoString) (route : R) (tr : List (Event SI U M R)) :
    Run σ SI U M R (GoString × Option GoError) :=
  let inp1 : Input SI := { inp with StructuredInput := si }
  let sv := env.saveStructuredInput w inp1 ret pname route
  let tr1 := tr ++ [.save inp1 ret pname route sv.err]
  if sv.err ≠ none then ⟨.ret (ret, sv.err), tr1, sv.world⟩
  else
    let rr := routeResponse env sv.world sv.inp ret
    match rr.result with
    | .ret e => ⟨.ret (ret, e), tr1 ++ rr.trace, rr.world⟩
    | .panic k => ⟨.panic k, tr1 ++ rr.trace, rr.world⟩

/-- Source `processText`, run in world `w` on the context `c`. -/
def processText (env : Env σ SI U M R) (w : σ) (c : Context) :
    Run σ SI U M R (GoString × Option GoError) :=
  match c .cmd with
  | .str cmd =>
    if cmd.length = 0 then ⟨.ret ([], some .ErrInvalidCommand), [], w⟩
    else
      match trainGuard env.unicodeLower cmd with
      | none => ⟨.panic .sliceBounds, [], w⟩
      | some true =>
        match sliceFrom cmd 6 with
        | none => ⟨.panic .sliceBounds, [], w⟩
        | some text =>
          let t := env.train w text
          ⟨.ret ([], t.err), [.train text t.err], t.world⟩
      | some false =>
        let cl := env.classify w cmd
        let tr1 : List (Event SI U M R) :=
          [.classify cmd cl.si cl.err]
            ++ (if cl.err ≠ none then [.log "classifying sentence"] else [])
            ++ [.validateParams]
        match validateParams env.atoiFunc c with
        | .panic k => ⟨.panic k, tr1, cl.world⟩
        | .ret (_, _, _, some e) => ⟨.ret ([], some e), tr1, cl.world⟩
        | .ret (uid, fid, fidT, none) =>
          let in0 : Input SI := ⟨cl.si, uid, fid, fidT⟩
          let gu := env.getUser cl.world in0
          let tr2 := tr1 ++ [.getUser in0 gu.user gu.err]
            ++ (if gu.err ≠ none ∧ gu.err ≠ some .ErrMissingUser then [.log "getUser"]
                else [])
          let ac := env.addContext gu.world gu.user gu.inp
          let tr3 := tr2 ++ [.addContext gu.user gu.inp ac.msg ac.ctxAdded ac.err]
            ++ (if ac.err ≠ none then [.log "addContext"] else [])
          let cp := env.callPkg ac.world ac.msg ac.ctxAdded ac.inp
          let tr4 := tr3 ++ [.callPkg ac.msg ac.ctxAdded cp.reply cp.pname cp.route cp.err]
          if cp.err ≠ none ∧ cp.err ≠ some .ErrMissingPackage then
            ⟨.ret (cp.reply, cp.err), tr4, cp.world⟩
          else if cp.reply.length = 0 then
            let cf := env.Confused cp.world
            persistAndRoute env cf.world cp.inp cl.si cf.reply cp.pname cp.route
              (tr4 ++ [.confused cf.reply])
          else
            persistAndRoute env cp.world cp.inp cl.si cp.reply cp.pname cp.route tr4
  | _ => ⟨.panic .typeAssertion, [], w⟩

/-- The four `c.Set` calls of source `handlerMain`: `form` gives the form values
of the request (`c.Form` of an absent field is the empty string). -/
def mainContext (c : Context) (form : Key → GoString) : Context :=
  (((c.set .cmd (.str (form .cmd))).set .flexid (.str (form .flexid))).set
    .flexidtype (.str (form .flexidtype))).set .uid (.str (form .uid))

/-- Source `handlerMain`: the returned value is the handler's error.  The reply
is handed to `c.HTML` as its format argument. -/
def handlerMain (env : Env σ SI U M R) (w : σ) (c : Context) (form : Key → GoString) :
    Run σ SI U M R (Option GoError) :=
  let r := processText env w (mainContext c form)
  match r.result with
  | .panic k => ⟨.panic k, r.trace, r.world⟩
  | .ret (_, some e) => ⟨.ret (some e), r.trace, r.world⟩
  | .ret (ret, none) =>
    let h := env.html r.world 200 ret
    ⟨.ret h.err, r.trace ++ [.html 200 ret h.err], h.world⟩

end Pipeline

/-! ## Trace segments

The trace of a run that passes the entry checks, cut at the calls. -/

section Segments

variable {SI U M R : Type}

/-- The trace from `classify` to `validateParams`. -/
def entryTrace (cmd : GoString) (si : SI) (e0 : Option GoError) : List (Event SI U M R) :=
  [.classify cmd si e0] ++ (if e0 ≠ none then [.log "classifying sentence"] else [])
    ++ [.validateParams]

/-- The trace from `classify` to `callPkg`. -/
def callTrace (cmd : GoString) (si : SI) (e0 : Option GoError) (in0 : Input SI) (u : U)
    (e1 : Option GoError) (in1 : Input SI) (msg : M) (ca : Bool) (e2 : Option GoError)
    (reply pname : GoString) (route : R) (e3 : Option GoError) : List (Event SI U M R) :=
  entryTrace cmd si e0 ++ [.getUser in0 u e1]
    ++ (if e1 ≠ none ∧ e1 ≠ some .ErrMissingUser then [.log "getUser"] else [])
    ++ [.addContext u in1 msg ca e2]
    ++ (if e2 ≠ none then [.log "addContext"] else [])
    ++ [.callPkg msg ca reply pname route e3]

/-- The event is the call of `train`. -/
def Event.isTrain : Event SI U M R → Bool
  | .train .. => true
  | _ => false

end Segments

/-! ## A concrete world for evaluation

The world is a counter of the collaborator calls made so far. -/

/-- A collaborator behaviour switch for the concrete environment. -/
structure Knobs where
  classifyErr : Option GoError := none
  pkgReply : GoString := ascii "hi"
  pkgName : GoString := ascii "greeter"
  pkgErr : Option GoError := none
  saveErr : Option GoError := none
  trainErr : Option GoError := none

/-- A concrete environment: Go up to 1.9 (`ParseInt` in the error text), phone
channel 2 (the value `handlerTwilio` sets), collaborators that succeed unless
`k` says otherwise, and `"?"` as the canned reply. -/
def testEnv (k : Knobs) : Env Nat Unit Unit Unit Unit where
  atoiFunc := .ParseInt
  unicodeLower := fun r => r
  FlexIdTypePhone := 2
  train := fun w _ => ⟨k.trainErr, w + 1⟩
  classify := fun w _ => ⟨(), k.classifyErr, w + 1⟩
  getUser := fun w i => ⟨(), none, i, w + 1⟩
  addContext := fun w _ i => ⟨(), false, none, i, w + 1⟩
  callPkg := fun w _ _ i => ⟨k.pkgReply, k.pkgName, (), k.pkgErr, i, w + 1⟩
  Confused := fun w => ⟨ascii "?", w + 1⟩
  saveStructuredInput := fun w i _ _ _ => ⟨k.saveErr, i, w + 1⟩
  send := fun w _ _ _ => ⟨none, w + 1⟩
  html := fun w _ _ => ⟨none, w + 1⟩

/-- The form of a request: command, flex id, flex id type, user id. -/
def mkForm (cmd flexid flexidtype uid : GoString) : Key → GoString
  | .cmd => cmd
  | .flexid => flexid
  | .flexidtype => flexidtype
  | .uid => uid

/-- The context `handlerMain` builds for a request. -/
def mkContext (cmd flexid flexidtype uid : GoString) : Context :=
  mainContext Context.empty (mkForm cmd flexid flexidtype uid)

/-- The request `hello` from a phone (flex id type 2), user id left empty. -/
def phoneRequest : Context := mkContext (ascii "hello") (ascii "+15550100") (ascii "2") []

/-- The form of the request `hello` from the web (flex id type 1), user id left
empty. -/
def webForm : Key → GoString := mkForm (ascii "hello") (ascii "session-9") (ascii "1") []

/-- The request `hello` from the web. -/
def webRequest : Context := mainContext Context.empty webForm

/-- No package answers: empty reply, empty package name, `ErrMissingPackage`. -/
def envMissing : Env Nat Unit Unit Unit Unit :=
  testEnv { pkgReply := [], pkgName := [], pkgErr := some .ErrMissingPackage }

/-- The package call times out: empty reply and a transport error. -/
def envTimeout : Env Nat Unit Unit Unit Unit :=
  testEnv { pkgReply := [], pkgName := ascii "greeter", pkgErr := some (.foreign 1) }

/-- The transcript store is down: `saveStructuredInput` fails. -/
def envSaveDown : Env Nat Unit Unit Unit Unit :=
  testEnv { saveErr := some (.foreign 2) }

/-- The concrete environment with one entry of the Unicode case tables:
`unicode.ToLower` sends U+0130 (capital I with dot above) to U+0069 (`i`). -/
def envCaseTable : Env Nat Unit Unit Unit Unit :=
  { testEnv {} with unicodeLower := fun r => if r = 304 then 105 else r }

/-- The request whose command is `train`, a no-break space (U+00A0, the two
bytes 194 160) and `hello`. -/
def nbspTrainRequest : Context :=
  mkContext (ascii "train" ++ [194, 160] ++ ascii "hello") (ascii "abc") (ascii "1") []

/-- The request whose command is `tra`, U+0130 (the two bytes 196 176), `n`, a
space and `x`. -/
def dottedTrainRequest : Context :=
  mkContext (ascii "tra" ++ [196, 176] ++ ascii "n x") (ascii "abc") (ascii "1") []

/-- The classifier was never trained: `classify` fails. -/
def envUntrained : Env Nat Unit Unit Unit Unit :=
  testEnv { classifyErr := some (.foreign 3) }

/-! ## Lemmas on the library model -/

theorem decodeRune_ascii (b : Nat) (rest : GoString) (hb : b < 128) :
    decodeRune (b :: rest) = (b, 1) := by
  simp [decodeRune, hb]

theorem mapRunes_ascii_cons (tbl : Nat → Nat) (fuel b : Nat) (rest : GoString)
    (hb : b < 128) :
    mapRunes (unicodeToLower tbl) (fuel + 1) (b :: rest)
      = lowerASCII b :: mapRunes (unicodeToLower tbl) fuel rest := by
  have h1 : b ≤ 127 := by omega
  have h2 : lowerASCII b < 128 := by
    unfold lowerASCII
    split <;> omega
  simp [mapRunes, decodeRune_ascii b rest hb, unicodeToLower, h1, encodeRune, h2]

/-- Lower-casing leaves an ASCII beginning in place, byte for byte. -/
theorem ToLower_ascii_append (tbl : Nat → Nat) (p rest : GoString)
    (hp : ∀ b ∈ p, b < 128) :
    ToLower tbl (p ++ rest) = p.map lowerASCII ++ ToLower tbl rest := by
  induction p with
  | nil => simp
  | cons b p ih =>
    have hb : b < 128 := hp b (by simp)
    have hp2 : ∀ x ∈ p, x < 128 := fun x hx => hp x (by simp [hx])
    have ih2 := ih hp2
    unfold ToLower at ih2 ⊢
    simp only [List.cons_append, List.length_cons, List.map_cons]
    rw [mapRunes_ascii_cons tbl _ b _ hb, ih2]

/-- A decoded rune takes at least one byte and no more than there are. -/
theorem decodeRune_width (b : Nat) (rest : GoString) :
    1 ≤ (decodeRune (b :: rest)).2 ∧ (decodeRune (b :: rest)).2 ≤ (b :: rest).length := by
  simp only [decodeRune]
  repeat' split
  all_goals simp

/-- The fuel of `ToLower` never runs out: any fuel from the length of the string
on gives the same result. -/
theorem mapRunes_fuel (f : Nat → Nat) (n : Nat) :
    ∀ (s : GoString) (k : Nat), s.length ≤ n → mapRunes f (n + k) s = mapRunes f n s := by
  induction n with
  | zero =>
    intro s k hs
    have : s = [] := List.length_eq_zero.mp (Nat.le_zero.mp hs)
    subst this
    cases k <;> simp [mapRunes]
  | succ n ih =>
    intro s k hs
    have hk : n + 1 + k = (n + k) + 1 := by omega
    rcases s with _ | ⟨b, rest⟩
    · rw [hk]; simp [mapRunes]
    · have hw := decodeRune_width b rest
      have hlen : ((b :: rest).drop (decodeRune (b :: rest)).2).length ≤ n := by
        rw [List.length_drop]
        simp only [List.length_cons] at hs hw ⊢
        omega
      rw [hk]
      simp only [mapRunes]
      rw [ih _ k hlen]

theorem lowerASCII_lt (b : Nat) (h : lowerASCII b < 128) : b < 128 := by
  unfold lowerASCII at h
  split at h <;> omega

theorem trainKeyword_eq : trainKeyword = [116, 114, 97, 105, 110] := by decide

/-- A five-byte word that lower-cases to the keyword is made of ASCII bytes. -/
theorem keyword_ascii (kw : GoString) (h : kw.map lowerASCII = trainKeyword) :
    ∀ b ∈ kw, b < 128 := by
  intro b hb
  apply lowerASCII_lt
  have hm : lowerASCII b ∈ kw.map lowerASCII := List.mem_map_of_mem _ hb
  rw [h, trainKeyword_eq] at hm
  simp at hm
  omega

/-! ## The entry checks of processText -/

section Claims

variable {σ SI U M R : Type}

/-- C1: a request whose command string is empty is answered with the empty
reply and `ErrInvalidCommand`; no collaborator is called (the trace is empty)
and the world is left as it was. -/
theorem processText_empty_command (env : Env σ SI U M R) (w : σ) (c : Context)
    (h : c .cmd = .str []) :
    processText env w c = ⟨.ret ([], some .ErrInvalidCommand), [], w⟩ := by
  simp [processText, h]

theorem processText_empty_command_witness :
    mkContext [] (ascii "abc") (ascii "1") [] .cmd = .str [] ∧
    processText (testEnv {}) 0 (mkContext [] (ascii "abc") (ascii "1") [])
      = ⟨.ret ([], some .ErrInvalidCommand), [], 0⟩ :=
  ⟨by decide, processText_empty_command (testEnv {}) 0 _ (by decide)⟩

/-- C2 (as the code has it): a command made of the keyword `train` in ASCII
letters of either case (five bytes), one separator byte and a text is handed to
`train` with exactly that text; the reply is empty, the error is the one `train`
returned, and `train` is the only call of the run (no classification,
validation, user resolution, context merge, package call, persistence or
routing). -/
theorem processText_train (env : Env σ SI U M R) (w : σ) (c : Context)
    (kw text : GoString) (sep : Nat)
    (hkw : kw.map lowerASCII = trainKeyword)
    (hc : c .cmd = .str (kw ++ sep :: text)) :
    processText env w c
      = ⟨.ret ([], (env.train w text).err), [.train text (env.train w text).err],
          (env.train w text).world⟩ := by
  have hlen : kw.length = 5 := by
    have := congrArg List.length hkw
    simpa [trainKeyword_eq] using this
  have hlow : ToLower env.unicodeLower (kw ++ sep :: text)
      = trainKeyword ++ ToLower env.unicodeLower (sep :: text) := by
    rw [ToLower_ascii_append _ _ _ (keyword_ascii kw hkw), hkw]
  have hsl : slice (ToLower env.unicodeLower (kw ++ sep :: text)) 0 5 = some trainKeyword := by
    rw [hlow]
    simp [slice, trainKeyword_eq]
  have hfrom : sliceFrom (kw ++ sep :: text) 6 = some text := by
    have h6 : (6 : Nat) = kw.length + 1 := by omega
    simp only [sliceFrom, List.length_append, List.length_cons]
    rw [if_pos (by omega), h6, List.drop_append]
    simp
  have hne : (kw ++ sep :: text).length ≠ 0 := by simp
  have h5 : 5 ≤ (kw ++ sep :: text).length := by simp; omega
  simp only [processText, trainGuard, hc, hne, if_false, h5, if_true, hsl, Option.map_some',
    decide_True, hfrom]

theorem processText_train_witness :
    processText (testEnv {}) 0
        (mkContext (ascii "train greeting: hello there") (ascii "abc") (ascii "1") [])
      = ⟨.ret ([], none), [.train (ascii "greeting: hello there") none], 1⟩ :=
  processText_train (testEnv {}) 0 _ (ascii "train") (ascii "greeting: hello there") 32
    (by decide) (by decide)

/-- C2 refuted: the text handed to `train` is `cmd[6:]`, the bytes after the
first six, whatever the keyword and the separator are.  After `train` and a
no-break space (one character, two bytes) `train` gets the second byte of the
separator before `hello`; after `tra`, U+0130, `n` (a keyword that
`strings.ToLower` turns into `train`, six bytes) and a space it gets the space
before `x`. -/
theorem train_text_by_byte_offset :
    processText (testEnv {}) 0 nbspTrainRequest
      = ⟨.ret ([], none), [.train (160 :: ascii "hello") none], 1⟩ ∧
    160 :: ascii "hello" ≠ ascii "hello" ∧
    processText envCaseTable 0 dottedTrainRequest
      = ⟨.ret ([], none), [.train (ascii " x") none], 1⟩ ∧
    ascii " x" ≠ ascii "x" := by
  refine ⟨by rfl, by decide, by rfl, by decide⟩

/-- Whenever the keyword test succeeds on a command of six bytes or more, the
text handed to `train` is the command without its first six bytes. -/
theorem processText_train_offset (env : Env σ SI U M R) (w : σ) (c : Context)
    (cmd : GoString) (hc : c .cmd = .str cmd)
    (hg : trainGuard env.unicodeLower cmd = some true) (h6 : 6 ≤ cmd.length) :
    processText env w c
      = ⟨.ret ([], (env.train w (cmd.drop 6)).err),
          [.train (cmd.drop 6) (env.train w (cmd.drop 6)).err],
          (env.train w (cmd.drop 6)).world⟩ := by
  have hne : cmd.length ≠ 0 := by omega
  simp [processText, hc, hne, hg, sliceFrom, h6]

/-- C9: on the five-byte command `train` the guard `len(cmd) >= 5` holds, the
keyword test succeeds, and the extraction `cmd[6:]` is out of range: the run
panics before any call is made, whatever the collaborators and the rest of the
request. -/
theorem processText_bare_train_panics (env : Env σ SI U M R) (w : σ) (c : Context) :
    processText env w (c.set .cmd (.str (ascii "train")))
      = ⟨.panic .sliceBounds, [], w⟩ := by
  have hc : (c.set .cmd (.str (ascii "train"))) .cmd = .str (trainKeyword ++ []) := by
    simp [Context.set, trainKeyword]
  have hlow : ToLower env.unicodeLower (trainKeyword ++ []) = trainKeyword := by
    rw [ToLower_ascii_append _ _ _ (keyword_ascii _ (by decide))]
    simp [ToLower, mapRunes]
    decide
  have hsl : slice trainKeyword 0 5 = some trainKeyword := by decide
  have hfrom : sliceFrom trainKeyword 6 = none := by decide
  have hne : trainKeyword.length ≠ 0 := by decide
  have h5 : 5 ≤ trainKeyword.length := by decide
  simp only [List.append_nil] at hc hlow
  simp only [processText, trainGuard, hc, hne, if_false, h5, if_true, hlow, hsl,
    Option.map_some', decide_True, hfrom]

/-- The guard `len(cmd) >= 5` does not bound `strings.ToLower(cmd)`: two Kelvin
signs (U+212A, three bytes each) lower-case to `kk`, and `[0:5]` is out of
range, given that `unicode.ToLower` sends U+212A to `k` as the Unicode tables
do. -/
theorem processText_kelvin_panics (env : Env σ SI U M R) (w : σ) (c : Context)
    (hk : env.unicodeLower 8490 = 107) :
    processText env w (c.set .cmd (.str [226, 132, 170, 226, 132, 170]))
      = ⟨.panic .sliceBounds, [], w⟩ := by
  have hlow : ToLower env.unicodeLower [226, 132, 170, 226, 132, 170] = [107, 107] := by
    simp [ToLower, mapRunes, decodeRune, isCont, unicodeToLower, hk, encodeRune]
  simp [processText, Context.set, trainGuard, hlow, slice]

/-! ## validateParams -/

/-- C7: with the user id `7` and the flex id type `1`, `strconv.Atoi` succeeds,
`err` is nil, and `err.Error()` panics: `validateParams` does not return. -/
theorem validateParams_integer_uid_panics (fn : NumFunc) (cmd fid : GoString) :
    validateParams fn (mkContext cmd fid (ascii "1") (ascii "7"))
      = .panic .nilDereference := by
  cases fn <;> rfl

/-- Any user id that `strconv.Atoi` accepts makes `validateParams` panic. -/
theorem validateParams_panics_of_atoi (fn : NumFunc) (c : Context) (fid uidS : GoString)
    (hf : c .flexid = .str fid) (hu : c .uid = .str uidS) (ha : (Atoi fn uidS).2 = none) :
    validateParams fn c = .panic .nilDereference := by
  rcases hA : Atoi fn uidS with ⟨n, e⟩
  rw [hA] at ha
  simp only at ha
  subst ha
  simp [validateParams, hf, hu, hA]

/-- With the error text of Go up to 1.9, an empty user id is read as 0 and an
empty flex id type as 0, without error. -/
theorem validateParams_empty (c : Context) (fid : GoString)
    (hf : c .flexid = .str fid) (hu : c .uid = .str []) (ht : c .flexidtype = .str []) :
    validateParams .ParseInt c = .ret (0, fid, 0, none) := by
  simp [validateParams, hf, hu, ht, Atoi, isEmptyParseIntMsg]

/-- With the error text of Go 1.10 and later, the empty user id is rejected. -/
theorem validateParams_empty_later (c : Context) (fid : GoString)
    (hf : c .flexid = .str fid) (hu : c .uid = .str []) :
    validateParams .Atoi c = .ret (0, fid, 0, some (.num .Atoi [] .ErrSyntax)) := by
  simp [validateParams, hf, hu, Atoi, isEmptyParseIntMsg]

/-! ## checkRequiredEnvVars -/

theorem slice_take_iff (base p : GoString) (h : p.length ≤ base.length) :
    slice base 0 p.length = some p ↔ p <+: base := by
  simp only [slice, Nat.zero_le, h, and_self, if_true, List.drop_zero, Option.some.injEq]
  constructor
  · intro ht
    rw [← ht]
    exact List.take_prefix _ _
  · intro hp
    exact List.prefix_iff_eq_take.mp hp |>.symm

/-- C10: `checkRequiredEnvVars` returns nil exactly when `strconv.Atoi` accepts
`PORT` and `BASE_URL` has at least 4 bytes and begins with `http`; otherwise it
returns the error of the first failing check, in the order: `PORT` not an
integer, `BASE_URL` empty, `BASE_URL` too short or not beginning with `http`. -/
theorem checkRequiredEnvVars_spec (fn : NumFunc) (port base : GoString) :
    (checkRequiredEnvVars fn port base = none ↔
      (Atoi fn port).2 = none ∧ 4 ≤ base.length ∧ ascii "http" <+: base) ∧
    ((Atoi fn port).2 ≠ none →
      checkRequiredEnvVars fn port base = some (.new "PORT is not set to an integer")) ∧
    ((Atoi fn port).2 = none → base.length = 0 →
      checkRequiredEnvVars fn port base = some (.new "BASE_URL not set")) ∧
    ((Atoi fn port).2 = none → base.length ≠ 0 →
      (base.length < 4 ∨ ¬ ascii "http" <+: base) →
      checkRequiredEnvVars fn port base
        = some (.new "BASE_URL invalid. Must include http/https")) := by
  have hlen : (ascii "http").length = 4 := by decide
  have key : 4 ≤ base.length → (slice base 0 4 = some (ascii "http") ↔ ascii "http" <+: base) := by
    intro h
    have := slice_take_iff base (ascii "http") (by rw [hlen]; exact h)
    rwa [hlen] at this
  refine ⟨?_, ?_, ?_, ?_⟩
  · unfold checkRequiredEnvVars
    by_cases hp : (Atoi fn port).2 = none
    · by_cases h0 : base.length = 0
      · simp [hp, h0]
      · by_cases h4 : base.length < 4
        · simp [hp, h0, h4]
        · have h4' : 4 ≤ base.length := by omega
          simp [hp, h0, h4, key h4', h4']
    · simp [hp]
  · intro hp
    simp [checkRequiredEnvVars, hp]
  · intro hp h0
    simp [checkRequiredEnvVars, hp, h0]
  · intro hp h0 hbad
    by_cases h4 : base.length < 4
    · simp [checkRequiredEnvVars, hp, h0, h4]
    · have h4' : 4 ≤ base.length := by omega
      have hnp : ¬ ascii "http" <+: base := by
        rcases hbad with h | h
        · omega
        · exact h
      simp [checkRequiredEnvVars, hp, h0, h4, key h4', hnp]

theorem checkRequiredEnvVars_spec_witness :
    checkRequiredEnvVars .ParseInt (ascii "8080") (ascii "https://ava.example") = none ∧
    checkRequiredEnvVars .ParseInt (ascii "80a") (ascii "https://ava.example")
      = some (.new "PORT is not set to an integer") ∧
    checkRequiredEnvVars .ParseInt (ascii "8080") []
      = some (.new "BASE_URL not set") ∧
    checkRequiredEnvVars .ParseInt (ascii "8080") (ascii "ftp://ava.example")
      = some (.new "BASE_URL invalid. Must include http/https") :=
  ⟨(checkRequiredEnvVars_spec .ParseInt (ascii "8080") (ascii "https://ava.example")).1.mpr
      ⟨by decide, by decide, by decide⟩,
    (checkRequiredEnvVars_spec .ParseInt (ascii "80a") (ascii "https://ava.example")).2.1
      (by decide),
    (checkRequiredEnvVars_spec .ParseInt (ascii "8080") []).2.2.1 (by decide) (by decide),
    (checkRequiredEnvVars_spec .ParseInt (ascii "8080") (ascii "ftp://ava.example")).2.2.2
      (by decide) (by decide) (Or.inr (by decide))⟩

/-! ## The dispatch path -/

/-- Before `classify` the only call a run can make is `train`. -/
theorem processText_shape (env : Env σ SI U M R) (w : σ) (c : Context) :
    (∀ ev ∈ (processText env w c).trace, ev.isTrain = true) ∨
    ∃ cmd, c .cmd = .str cmd ∧ cmd.length ≠ 0 ∧ trainGuard env.unicodeLower cmd = some false := by
  rcases hcmd : c .cmd with _ | cmd | n
  · left; simp [processText, hcmd]
  · by_cases hlen : cmd.length = 0
    · left; simp [processText, hcmd, hlen]
    · rcases hg : trainGuard env.unicodeLower cmd with _ | _ | _
      · left; simp [processText, hcmd, hlen, hg]
      · right; exact ⟨cmd, rfl, hlen, hg⟩
      · left
        rcases hs : sliceFrom cmd 6 with _ | text
        · simp [processText, hcmd, hlen, hg, hs]
        · simp [processText, hcmd, hlen, hg, hs, Event.isTrain]
  · left; simp [processText, hcmd]

/-- A run stopped by `validateParams` (panic or error). -/
theorem processText_stop (env : Env σ SI U M R) (w : σ) (c : Context) (cmd : GoString)
    (hcmd : c .cmd = .str cmd) (hlen : cmd.length ≠ 0)
    (hg : trainGuard env.unicodeLower cmd = some false)
    (hv : ∀ uid fid fidT, validateParams env.atoiFunc c ≠ .ret (uid, fid, fidT, none)) :
    (processText env w c).trace
      = entryTrace cmd (env.classify w cmd).si (env.classify w cmd).err := by
  rcases hv2 : validateParams env.atoiFunc c with ⟨uid, fid, fidT, _ | e⟩ | k
  · exact absurd hv2 (hv uid fid fidT)
  · simp [processText, hcmd, hlen, hg, hv2, entryTrace]
  · simp [processText, hcmd, hlen, hg, hv2, entryTrace]

/-- A run that reaches `callPkg`, in terms of what the collaborators returned. -/
theorem processText_dispatch (env : Env σ SI U M R) (w : σ) (c : Context) (cmd : GoString)
    (hcmd : c .cmd = .str cmd) (hlen : cmd.length ≠ 0)
    (hg : trainGuard env.unicodeLower cmd = some false)
    {uid fidT : Int} {fid : GoString}
    (hv : validateParams env.atoiFunc c = .ret (uid, fid, fidT, none))
    {si : SI} {e0 : Option GoError} {w1 : σ}
    (hcl : env.classify w cmd = ⟨si, e0, w1⟩)
    {u : U} {e1 : Option GoError} {in1 : Input SI} {w2 : σ}
    (hgu : env.getUser w1 ⟨si, uid, fid, fidT⟩ = ⟨u, e1, in1, w2⟩)
    {msg : M} {ca : Bool} {e2 : Option GoError} {in2 : Input SI} {w3 : σ}
    (hac : env.addContext w2 u in1 = ⟨msg, ca, e2, in2, w3⟩)
    {reply pname : GoString} {route : R} {e3 : Option GoError} {in3 : Input SI} {w4 : σ}
    (hcp : env.callPkg w3 msg ca in2 = ⟨reply, pname, route, e3, in3, w4⟩) :
    processText env w c =
      if e3 ≠ none ∧ e3 ≠ some .ErrMissingPackage then
        ⟨.ret (reply, e3),
          callTrace cmd si e0 ⟨si, uid, fid, fidT⟩ u e1 in1 msg ca e2 reply pname route e3, w4⟩
      else if reply.length = 0 then
        persistAndRoute env (env.Confused w4).world in3 si (env.Confused w4).reply pname route
          (callTrace cmd si e0 ⟨si, uid, fid, fidT⟩ u e1 in1 msg ca e2 reply pname route e3
            ++ [.confused (env.Confused w4).reply])
      else
        persistAndRoute env w4 in3 si reply pname route
          (callTrace cmd si e0 ⟨si, uid, fid, fidT⟩ u e1 in1 msg ca e2 reply pname route e3) := by
  simp only [processText, hcmd, hlen, hg, hv, hcl, hgu, hac, hcp, if_false, callTrace, entryTrace]

/-- The end of a run, in terms of what `saveStructuredInput` returned. -/
theorem persistAndRoute_run (env : Env σ SI U M R) (w : σ) (inp : Input SI) (si : SI)
    (ret pname : GoString) (route : R) (tr : List (Event SI U M R))
    {es : Option GoError} {in4 : Input SI} {w5 : σ}
    (hsv : env.saveStructuredInput w { inp with StructuredInput := si } ret pname route
      = ⟨es, in4, w5⟩) :
    persistAndRoute env w inp si ret pname route tr =
      if es ≠ none then
        ⟨.ret (ret, es), tr ++ [.save { inp with StructuredInput := si } ret pname route es], w5⟩
      else if in4.FlexIdType ≠ env.FlexIdTypePhone then
        ⟨.ret (ret, some (.new "route type not implemented")),
          tr ++ [.save { inp with StructuredInput := si } ret pname route es]
            ++ [.routeResponse in4 ret], w5⟩
      else
        ⟨.ret (ret, (env.send w5 avaNumber in4.FlexId ret).err),
          tr ++ [.save { inp with StructuredInput := si } ret pname route es]
            ++ [.routeResponse in4 ret,
                .send avaNumber in4.FlexId ret (env.send w5 avaNumber in4.FlexId ret).err,
                .log "resp"],
          (env.send w5 avaNumber in4.FlexId ret).world⟩ := by
  simp only [persistAndRoute, hsv, routeResponse]
  by_cases h1 : es = none
  · by_cases h2 : in4.FlexIdType = env.FlexIdTypePhone
    · simp [h1, h2]
    · simp [h1, h2]
  · simp [h1]

/-- Up to `callPkg` nothing is persisted, routed, sent or written, and no
fallback reply is asked for. -/
theorem callTrace_quiet (cmd : GoString) (si : SI) (e0 : Option GoError) (in0 : Input SI)
    (u : U) (e1 : Option GoError) (in1 : Input SI) (msg : M) (ca : Bool)
    (e2 : Option GoError) (reply pname : GoString) (route : R) (e3 : Option GoError) :
    ∀ ev ∈ callTrace cmd si e0 in0 u e1 in1 msg ca e2 reply pname route e3,
      ev.isConfused = false ∧ ev.isSave = false ∧ ev.isRoute = false ∧ ev.isSend = false
        ∧ ev.isHtml = false := by
  unfold callTrace entryTrace
  split_ifs <;>
    simp [List.forall_mem_append, Event.isConfused, Event.isSave, Event.isRoute, Event.isSend,
      Event.isHtml]

/-- Up to `validateParams` the only calls are `classify` and the logger. -/
theorem entryTrace_quiet (cmd : GoString) (si : SI) (e0 : Option GoError) :
    ∀ ev ∈ (entryTrace cmd si e0 : List (Event SI U M R)),
      ev.isCallPkg = false ∧ ev.isConfused = false ∧ ev.isSave = false ∧ ev.isRoute = false
        ∧ ev.isSend = false ∧ ev.isHtml = false := by
  unfold entryTrace
  split_ifs <;>
    simp [List.forall_mem_append, Event.isCallPkg, Event.isConfused, Event.isSave,
      Event.isRoute, Event.isSend, Event.isHtml]

/-- The one `callPkg` event of the trace up to `callPkg`. -/
theorem callPkg_mem_callTrace (cmd : GoString) (si : SI) (e0 : Option GoError)
    (in0 : Input SI) (u : U) (e1 : Option GoError) (in1 : Input SI) (msg : M) (ca : Bool)
    (e2 : Option GoError) (reply pname : GoString) (route : R) (e3 : Option GoError)
    (m' : M) (ca' : Bool) (reply' pname' : GoString) (route' : R) (e' : Option GoError) :
    Event.callPkg m' ca' reply' pname' route' e'
        ∈ callTrace cmd si e0 in0 u e1 in1 msg ca e2 reply pname route e3
      ↔ m' = msg ∧ ca' = ca ∧ reply' = reply ∧ pname' = pname ∧ route' = route ∧ e' = e3 := by
  unfold callTrace entryTrace
  split_ifs <;> simp

/-- The `classify` event of the trace up to `validateParams`. -/
theorem classify_mem_entryTrace (cmd : GoString) (si : SI) (e0 : Option GoError)
    (cmd' : GoString) (si' : SI) (e' : Option GoError) :
    (Event.classify cmd' si' e' : Event SI U M R) ∈ entryTrace cmd si e0
      ↔ cmd' = cmd ∧ si' = si ∧ e' = e0 := by
  unfold entryTrace
  split_ifs <;> simp

/-- The three ways `persistAndRoute` can end: the save fails, the channel is
not the phone channel, or the reply is sent. -/
theorem persistAndRoute_cases (env : Env σ SI U M R) (w : σ) (inp : Input SI) (si : SI)
    (ret pname : GoString) (route : R) (tr : List (Event SI U M R)) :
    ∃ (es : Option GoError) (in4 : Input SI),
      (es ≠ none ∧
        (persistAndRoute env w inp si ret pname route tr).trace
          = tr ++ [.save { inp with StructuredInput := si } ret pname route es] ∧
        (persistAndRoute env w inp si ret pname route tr).result = .ret (ret, es)) ∨
      (es = none ∧ in4.FlexIdType ≠ env.FlexIdTypePhone ∧
        (persistAndRoute env w inp si ret pname route tr).trace
          = tr ++ [.save { inp with StructuredInput := si } ret pname route none]
              ++ [.routeResponse in4 ret] ∧
        (persistAndRoute env w inp si ret pname route tr).result
          = .ret (ret, some (.new "route type not implemented"))) ∨
      (es = none ∧ in4.FlexIdType = env.FlexIdTypePhone ∧
        ∃ er : Option GoError,
        (persistAndRoute env w inp si ret pname route tr).trace
          = tr ++ [.save { inp with StructuredInput := si } ret pname route none]
              ++ [.routeResponse in4 ret, .send avaNumber in4.FlexId ret er, .log "resp"] ∧
        (persistAndRoute env w inp si ret pname route tr).result = .ret (ret, er)) := by
  rcases hsv : env.saveStructuredInput w { inp with StructuredInput := si } ret pname route
    with ⟨es, in4, w5⟩
  rw [persistAndRoute_run env w inp si ret pname route tr hsv]
  refine ⟨es, in4, ?_⟩
  by_cases h1 : es = none
  · subst h1
    by_cases h2 : in4.FlexIdType = env.FlexIdTypePhone
    · right; right
      refine ⟨rfl, h2, (env.send w5 avaNumber in4.FlexId ret).err, ?_, ?_⟩ <;> simp [h2]
    · right; left
      refine ⟨rfl, h2, ?_, ?_⟩ <;> simp [h2]
  · left
    refine ⟨h1, ?_, ?_⟩ <;> simp [h1]

/-- Every way a run that passed `validateParams` can end. -/
theorem processText_cases (env : Env σ SI U M R) (w : σ) (c : Context) (cmd : GoString)
    (hcmd : c .cmd = .str cmd) (hlen : cmd.length ≠ 0)
    (hg : trainGuard env.unicodeLower cmd = some false)
    {uid fidT : Int} {fid : GoString}
    (hv : validateParams env.atoiFunc c = .ret (uid, fid, fidT, none)) :
    ∃ (si : SI) (e0 : Option GoError) (u : U) (e1 : Option GoError) (in1 : Input SI)
      (msg : M) (ca : Bool) (e2 : Option GoError) (reply pname : GoString) (route : R)
      (e3 : Option GoError) (in3 : Input SI),
      (e3 ≠ none ∧ e3 ≠ some .ErrMissingPackage ∧
        (processText env w c).trace
          = callTrace cmd si e0 ⟨si, uid, fid, fidT⟩ u e1 in1 msg ca e2 reply pname route e3 ∧
        (processText env w c).result = .ret (reply, e3)) ∨
      ((e3 = none ∨ e3 = some .ErrMissingPackage) ∧
        ∃ (ret : GoString) (pre : List (Event SI U M R)),
          ((reply.length = 0 ∧ pre = [.confused ret]) ∨
            (reply.length ≠ 0 ∧ pre = [] ∧ ret = reply)) ∧
          ∃ (es : Option GoError) (in4 : Input SI),
            (es ≠ none ∧
              (processText env w c).trace
                = callTrace cmd si e0 ⟨si, uid, fid, fidT⟩ u e1 in1 msg ca e2 reply pname
                    route e3 ++ pre
                  ++ [.save { in3 with StructuredInput := si } ret pname route es] ∧
              (processText env w c).result = .ret (ret, es)) ∨
            (es = none ∧ in4.FlexIdType ≠ env.FlexIdTypePhone ∧
              (processText env w c).trace
                = callTrace cmd si e0 ⟨si, uid, fid, fidT⟩ u e1 in1 msg ca e2 reply pname
                    route e3 ++ pre
                  ++ [.save { in3 with StructuredInput := si } ret pname route none]
                  ++ [.routeResponse in4 ret] ∧
              (processText env w c).result
                = .ret (ret, some (.new "route type not implemented"))) ∨
            (es = none ∧ in4.FlexIdType = env.FlexIdTypePhone ∧
              ∃ er : Option GoError,
              (processText env w c).trace
                = callTrace cmd si e0 ⟨si, uid, fid, fidT⟩ u e1 in1 msg ca e2 reply pname
                    route e3 ++ pre
                  ++ [.save { in3 with StructuredInput := si } ret pname route none]
                  ++ [.routeResponse in4 ret, .send avaNumber in4.FlexId ret er, .log "resp"] ∧
              (processText env w c).result = .ret (ret, er))) := by
  rcases hcl : env.classify w cmd with ⟨si, e0, w1⟩
  rcases hgu : env.getUser w1 ⟨si, uid, fid, fidT⟩ with ⟨u, e1, in1, w2⟩
  rcases hac : env.addContext w2 u in1 with ⟨msg, ca, e2, in2, w3⟩
  rcases hcp : env.callPkg w3 msg ca in2 with ⟨reply, pname, route, e3, in3, w4⟩
  rw [processText_dispatch env w c cmd hcmd hlen hg hv hcl hgu hac hcp]
  refine ⟨si, e0, u, e1, in1, msg, ca, e2, reply, pname, route, e3, in3, ?_⟩
  by_cases hE : e3 ≠ none ∧ e3 ≠ some .ErrMissingPackage
  · left
    rw [if_pos hE]
    exact ⟨hE.1, hE.2, rfl, rfl⟩
  · right
    rw [if_neg hE]
    refine ⟨by tauto, ?_⟩
    by_cases hr : reply.length = 0
    · rw [if_pos hr]
      refine ⟨(env.Confused w4).reply, [.confused (env.Confused w4).reply], Or.inl ⟨hr, rfl⟩, ?_⟩
      have := persistAndRoute_cases env (env.Confused w4).world in3 si (env.Confused w4).reply
        pname route (callTrace cmd si e0 ⟨si, uid, fid, fidT⟩ u e1 in1 msg ca e2 reply pname
          route e3 ++ [.confused (env.Confused w4).reply])
      exact this
    · rw [if_neg hr]
      refine ⟨reply, [], Or.inr ⟨hr, rfl, rfl⟩, ?_⟩
      have := persistAndRoute_cases env w4 in3 si reply pname route
        (callTrace cmd si e0 ⟨si, uid, fid, fidT⟩ u e1 in1 msg ca e2 reply pname route e3)
      simpa using this

/-- A run that calls a package, persists or routes has passed the entry checks
and `validateParams`. -/
theorem processText_reached (env : Env σ SI U M R) (w : σ) (c : Context)
    (ev : Event SI U M R) (h : ev ∈ (processText env w c).trace)
    (hk : ev.isCallPkg = true ∨ ev.isSave = true ∨ ev.isRoute = true) :
    ∃ cmd uid fid fidT, c .cmd = .str cmd ∧ cmd.length ≠ 0 ∧
      trainGuard env.unicodeLower cmd = some false ∧
      validateParams env.atoiFunc c = .ret (uid, fid, fidT, none) := by
  rcases processText_shape env w c with hA | ⟨cmd, hcmd, hlen, hg⟩
  · have := hA _ h
    cases ev <;> simp [Event.isTrain, Event.isCallPkg, Event.isSave, Event.isRoute] at this hk
  · by_cases hv : ∃ uid fid fidT, validateParams env.atoiFunc c = .ret (uid, fid, fidT, none)
    · obtain ⟨uid, fid, fidT, hv⟩ := hv
      exact ⟨cmd, uid, fid, fidT, hcmd, hlen, hg, hv⟩
    · have hv' : ∀ uid fid fidT, validateParams env.atoiFunc c ≠ .ret (uid, fid, fidT, none) :=
        fun uid fid fidT hh => hv ⟨uid, fid, fidT, hh⟩
      rw [processText_stop env w c cmd hcmd hlen hg hv'] at h
      have := entryTrace_quiet _ _ _ _ h
      rcases hk with hk | hk | hk <;> simp [hk] at this

theorem callTrace_filter_isSave (cmd : GoString) (si : SI) (e0 : Option GoError)
    (in0 : Input SI) (u : U) (e1 : Option GoError) (in1 : Input SI) (msg : M) (ca : Bool)
    (e2 : Option GoError) (reply pname : GoString) (route : R) (e3 : Option GoError) :
    (callTrace cmd si e0 in0 u e1 in1 msg ca e2 reply pname route e3).filter Event.isSave
      = [] := by
  rw [List.filter_eq_nil_iff]
  intro ev hev
  simp [(callTrace_quiet _ _ _ _ _ _ _ _ _ _ _ _ _ _ ev hev).2.1]

/-- C3: when `callPkg` yields an empty reply, an empty package name and
`ErrMissingPackage`, the run goes on: the canned reply of `language.Confused`
is asked for, `saveStructuredInput` is called exactly once, with that reply and
the empty package name, and the reply `processText` returns is that reply. -/
theorem processText_missing_package (env : Env σ SI U M R) (w : σ) (c : Context)
    (m : M) (ca : Bool) (route : R)
    (h : Event.callPkg m ca [] [] route (some .ErrMissingPackage)
      ∈ (processText env w c).trace) :
    ∃ (canned : GoString) (inp : Input SI) (es er : Option GoError),
      Event.confused canned ∈ (processText env w c).trace ∧
      (processText env w c).trace.filter Event.isSave = [.save inp canned [] route es] ∧
      (processText env w c).result = .ret (canned, er) := by
  obtain ⟨cmd, uid, fid, fidT, hcmd, hlen, hg, hv⟩ :=
    processText_reached env w c _ h (Or.inl rfl)
  obtain ⟨si, e0, u, e1, in1, msg, ca', e2, reply, pname, route', e3, in3, hcase⟩ :=
    processText_cases env w c cmd hcmd hlen hg hv
  rcases hcase with ⟨-, h2, htr, -⟩ | ⟨-, ret, pre, hpre, es, in4, hend⟩
  · rw [htr, callPkg_mem_callTrace] at h
    exact absurd h.2.2.2.2.2.symm h2
  · have hcall : ∀ rest : List (Event SI U M R),
        (∀ ev ∈ rest, ev.isCallPkg = false) →
        Event.callPkg m ca [] [] route (some .ErrMissingPackage)
          ∈ callTrace cmd si e0 ⟨si, uid, fid, fidT⟩ u e1 in1 msg ca' e2 reply pname route' e3
            ++ rest →
        reply = [] ∧ pname = [] ∧ route' = route := by
      intro rest hrest hin
      rcases List.mem_append.mp hin with h1 | h1
      · rw [callPkg_mem_callTrace] at h1
        exact ⟨h1.2.2.1.symm, h1.2.2.2.1.symm, h1.2.2.2.2.1.symm⟩
      · have := hrest _ h1
        simp [Event.isCallPkg] at this
    rcases hpre with ⟨hr, rfl⟩ | ⟨hr, rfl, -⟩
    · rcases hend with ⟨-, htr, hres⟩ | ⟨-, -, htr, hres⟩ | ⟨-, -, er, htr, hres⟩
      · rw [htr, List.append_assoc] at h
        obtain ⟨-, rfl, rfl⟩ := hcall _ (by simp [Event.isCallPkg]) h
        exact ⟨ret, { in3 with StructuredInput := si }, es, es, by simp [htr],
          by simp [htr, List.filter_append, callTrace_filter_isSave, Event.isSave,
            List.filter_cons], hres⟩
      · rw [htr, List.append_assoc, List.append_assoc] at h
        obtain ⟨-, rfl, rfl⟩ := hcall _ (by simp [Event.isCallPkg]) h
        exact ⟨ret, { in3 with StructuredInput := si }, none, _, by simp [htr],
          by simp [htr, List.filter_append, callTrace_filter_isSave, Event.isSave,
            List.filter_cons], hres⟩
      · rw [htr, List.append_assoc, List.append_assoc] at h
        obtain ⟨-, rfl, rfl⟩ := hcall _ (by simp [Event.isCallPkg]) h
        exact ⟨ret, { in3 with StructuredInput := si }, none, er, by simp [htr],
          by simp [htr, List.filter_append, callTrace_filter_isSave, Event.isSave,
            List.filter_cons], hres⟩
    · exfalso
      have hre : reply = [] := by
        rcases hend with ⟨-, htr, -⟩ | ⟨-, -, htr, -⟩ | ⟨-, -, er, htr, -⟩
        · rw [htr, List.append_assoc] at h
          exact (hcall _ (by simp [Event.isCallPkg]) h).1
        · rw [htr, List.append_assoc, List.append_assoc] at h
          exact (hcall _ (by simp [Event.isCallPkg]) h).1
        · rw [htr, List.append_assoc, List.append_assoc] at h
          exact (hcall _ (by simp [Event.isCallPkg]) h).1
      exact hr (by simp [hre])

theorem save_not_mem_callTrace (cmd : GoString) (si : SI) (e0 : Option GoError)
    (in0 : Input SI) (u : U) (e1 : Option GoError) (in1 : Input SI) (msg : M) (ca : Bool)
    (e2 : Option GoError) (reply pname : GoString) (route : R) (e3 : Option GoError)
    (inp : Input SI) (reply' pname' : GoString) (route' : R) (e' : Option GoError) :
    Event.save inp reply' pname' route' e'
      ∉ callTrace cmd si e0 in0 u e1 in1 msg ca e2 reply pname route e3 := by
  intro hin
  have := (callTrace_quiet _ _ _ _ _ _ _ _ _ _ _ _ _ _ _ hin).2.1
  simp [Event.isSave] at this

theorem route_not_mem_callTrace (cmd : GoString) (si : SI) (e0 : Option GoError)
    (in0 : Input SI) (u : U) (e1 : Option GoError) (in1 : Input SI) (msg : M) (ca : Bool)
    (e2 : Option GoError) (reply pname : GoString) (route : R) (e3 : Option GoError)
    (inp : Input SI) (reply' : GoString) :
    Event.routeResponse inp reply'
      ∉ callTrace cmd si e0 in0 u e1 in1 msg ca e2 reply pname route e3 := by
  intro hin
  have := (callTrace_quiet _ _ _ _ _ _ _ _ _ _ _ _ _ _ _ hin).2.2.1
  simp [Event.isRoute] at this

/-- The events between `callPkg` and `saveStructuredInput`: at most the call of
`language.Confused`. -/
theorem pre_quiet (reply ret : GoString) (pre : List (Event SI U M R))
    (hpre : (reply.length = 0 ∧ pre = [.confused ret]) ∨
      (reply.length ≠ 0 ∧ pre = [] ∧ ret = reply)) :
    ∀ ev ∈ pre, ev.isCallPkg = false ∧ ev.isSave = false ∧ ev.isRoute = false
      ∧ ev.isSend = false ∧ ev.isHtml = false := by
  rcases hpre with ⟨-, rfl⟩ | ⟨-, rfl, -⟩ <;>
    simp [Event.isCallPkg, Event.isSave, Event.isRoute, Event.isSend, Event.isHtml]

/-- C6 (as the code has it): when `saveStructuredInput` returns an error,
`processText` returns the computed reply together with that error;
`routeResponse` is not called and nothing is sent. -/
theorem processText_save_error (env : Env σ SI U M R) (w : σ) (c : Context)
    (inp : Input SI) (reply pname : GoString) (route : R) (e : GoError)
    (h : Event.save inp reply pname route (some e) ∈ (processText env w c).trace) :
    (processText env w c).result = .ret (reply, some e) ∧
    ∀ ev ∈ (processText env w c).trace, ev.isRoute = false ∧ ev.isSend = false := by
  obtain ⟨cmd, uid, fid, fidT, hcmd, hlen, hg, hv⟩ :=
    processText_reached env w c _ h (Or.inr (Or.inl rfl))
  obtain ⟨si, e0, u, e1, in1, msg, ca', e2, reply', pname', route', e3, in3, hcase⟩ :=
    processText_cases env w c cmd hcmd hlen hg hv
  rcases hcase with ⟨-, -, htr, -⟩ | ⟨-, ret, pre, hpre, es, in4, hend⟩
  · rw [htr] at h
    exact absurd h (save_not_mem_callTrace _ _ _ _ _ _ _ _ _ _ _ _ _ _ _ _ _ _ _)
  · have hpq := pre_quiet reply' ret pre hpre
    have hnp : Event.save inp reply pname route (some e) ∉ pre := by
      intro hin
      have := (hpq _ hin).2.1
      simp [Event.isSave] at this
    rcases hend with ⟨-, htr, hres⟩ | ⟨-, -, htr, -⟩ | ⟨-, -, er, htr, -⟩
    · rw [htr] at h ⊢
      simp only [List.mem_append, List.mem_singleton, save_not_mem_callTrace, hnp, false_or,
        Event.save.injEq] at h
      obtain ⟨-, rfl, -, -, rfl⟩ := h
      refine ⟨hres, ?_⟩
      intro ev hev
      simp only [List.mem_append, List.mem_singleton] at hev
      rcases hev with (hev | hev) | hev
      · have := callTrace_quiet _ _ _ _ _ _ _ _ _ _ _ _ _ _ ev hev
        exact ⟨this.2.2.1, this.2.2.2.1⟩
      · have := hpq ev hev
        exact ⟨this.2.2.1, this.2.2.2.1⟩
      · subst hev
        simp [Event.isRoute, Event.isSend]
    · rw [htr] at h
      simp [save_not_mem_callTrace, hnp] at h
    · rw [htr] at h
      simp [save_not_mem_callTrace, hnp] at h

/-- After a successful save `persistAndRoute` calls `routeResponse` once, on the
record `saveStructuredInput` left; on a record that is not of the phone type the
result is the reply with the error `route type not implemented`, and nothing is
sent or written. -/
theorem persistAndRoute_persisted (env : Env σ SI U M R) (w0 : σ) (in3 : Input SI) (si : SI)
    (ret pname' : GoString) (route' : R) (tr : List (Event SI U M R))
    (hq : ∀ ev ∈ tr, ev.isSave = false ∧ ev.isRoute = false ∧ ev.isSend = false
      ∧ ev.isHtml = false)
    (inp0 : Input SI) (reply pname : GoString) (route : R)
    (h : Event.save inp0 reply pname route none
      ∈ (persistAndRoute env w0 in3 si ret pname' route' tr).trace) :
    ∃ (w' : σ) (inp : Input SI),
      (env.saveStructuredInput w' inp0 reply pname route).err = none ∧
      inp = (env.saveStructuredInput w' inp0 reply pname route).inp ∧
      (persistAndRoute env w0 in3 si ret pname' route' tr).trace.filter Event.isRoute
        = [.routeResponse inp reply] ∧
      (inp.FlexIdType ≠ env.FlexIdTypePhone →
        (persistAndRoute env w0 in3 si ret pname' route' tr).result
          = .ret (reply, some (.new "route type not implemented")) ∧
        ∀ ev ∈ (persistAndRoute env w0 in3 si ret pname' route' tr).trace,
          ev.isSend = false ∧ ev.isHtml = false) := by
  have hnot : Event.save inp0 reply pname route none ∉ tr := by
    intro hin
    have := (hq _ hin).1
    simp [Event.isSave] at this
  have hfil : tr.filter Event.isRoute = [] := by
    rw [List.filter_eq_nil_iff]
    intro ev hev
    simp [(hq ev hev).2.1]
  rcases hsv : env.saveStructuredInput w0 { in3 with StructuredInput := si } ret pname' route'
    with ⟨es, in4, w5⟩
  rw [persistAndRoute_run env w0 in3 si ret pname' route' tr hsv] at h ⊢
  by_cases h1 : es = none
  · subst h1
    by_cases h2 : in4.FlexIdType = env.FlexIdTypePhone
    · simp only [ne_eq, not_true_eq_false, if_false, h2] at h ⊢
      simp only [List.mem_append, List.mem_singleton, List.mem_cons, hnot, false_or,
        reduceCtorEq, Event.save.injEq, List.not_mem_nil, or_false, and_true] at h
      obtain ⟨rfl, rfl, rfl, rfl⟩ := h
      refine ⟨w0, in4, by rw [hsv], by rw [hsv], ?_, fun hne => absurd h2 hne⟩
      simp [List.filter_append, hfil, List.filter_cons, Event.isRoute]
    · simp only [ne_eq, not_true_eq_false, if_false, h2, not_false_eq_true, if_true] at h ⊢
      simp only [List.mem_append, List.mem_singleton, hnot, false_or, reduceCtorEq,
        Event.save.injEq, or_false, and_true] at h
      obtain ⟨rfl, rfl, rfl, rfl⟩ := h
      refine ⟨w0, in4, by rw [hsv], by rw [hsv], ?_, fun _ => ⟨rfl, ?_⟩⟩
      · simp [List.filter_append, hfil, List.filter_cons, Event.isRoute]
      · intro ev hev
        simp only [List.mem_append, List.mem_singleton] at hev
        rcases hev with (hev | hev) | hev
        · exact ⟨(hq ev hev).2.2.1, (hq ev hev).2.2.2⟩
        · subst hev
          simp [Event.isSend, Event.isHtml]
        · subst hev
          simp [Event.isSend, Event.isHtml]
  · exfalso
    simp only [ne_eq, h1, not_false_eq_true, if_true] at h
    simp only [List.mem_append, List.mem_singleton, hnot, false_or, Event.save.injEq] at h
    exact h1 h.2.2.2.2.symm

/-- C4 (as the code has it): when the turn was computed and persisted (the call
of `saveStructuredInput` returned nil), `routeResponse` is called exactly once,
on the input record `saveStructuredInput` left; when the flex id type of that
record is not the phone type, `processText` returns the reply together with the
error `route type not implemented`, nothing is sent, and `handlerMain` returns
that error without writing a response body. -/
theorem processText_web_route (env : Env σ SI U M R) (w : σ) (c : Context)
    (inp0 : Input SI) (reply pname : GoString) (route : R)
    (h : Event.save inp0 reply pname route none ∈ (processText env w c).trace) :
    ∃ (w' : σ) (inp : Input SI),
      (env.saveStructuredInput w' inp0 reply pname route).err = none ∧
      inp = (env.saveStructuredInput w' inp0 reply pname route).inp ∧
      (processText env w c).trace.filter Event.isRoute = [.routeResponse inp reply] ∧
      (inp.FlexIdType ≠ env.FlexIdTypePhone →
        (processText env w c).result
          = .ret (reply, some (.new "route type not implemented")) ∧
        (∀ ev ∈ (processText env w c).trace, ev.isSend = false ∧ ev.isHtml = false) ∧
        ∀ c0 form, c = mainContext c0 form →
          handlerMain env w c0 form
            = ⟨.ret (some (.new "route type not implemented")), (processText env w c).trace,
                (processText env w c).world⟩) := by
  obtain ⟨cmd, uid, fid, fidT, hcmd, hlen, hg, hv⟩ :=
    processText_reached env w c _ h (Or.inr (Or.inl rfl))
  rcases hcl : env.classify w cmd with ⟨si, e0, w1⟩
  rcases hgu : env.getUser w1 ⟨si, uid, fid, fidT⟩ with ⟨u, e1, in1, w2⟩
  rcases hac : env.addContext w2 u in1 with ⟨msg, ca, e2, in2, w3⟩
  rcases hcp : env.callPkg w3 msg ca in2 with ⟨reply', pname', route', e3, in3, w4⟩
  have hrun := processText_dispatch env w c cmd hcmd hlen hg hv hcl hgu hac hcp
  have hct := callTrace_quiet cmd si e0 ⟨si, uid, fid, fidT⟩ u e1 in1 msg ca e2 reply' pname'
    route' e3
  have finish : ∀ (w0 : σ) (ret : GoString) (tr : List (Event SI U M R)),
      (∀ ev ∈ tr, ev.isSave = false ∧ ev.isRoute = false ∧ ev.isSend = false
        ∧ ev.isHtml = false) →
      processText env w c = persistAndRoute env w0 in3 si ret pname' route' tr →
      ∃ (w' : σ) (inp : Input SI),
        (env.saveStructuredInput w' inp0 reply pname route).err = none ∧
        inp = (env.saveStructuredInput w' inp0 reply pname route).inp ∧
        (processText env w c).trace.filter Event.isRoute = [.routeResponse inp reply] ∧
        (inp.FlexIdType ≠ env.FlexIdTypePhone →
          (processText env w c).result
            = .ret (reply, some (.new "route type not implemented")) ∧
          (∀ ev ∈ (processText env w c).trace, ev.isSend = false ∧ ev.isHtml = false) ∧
          ∀ c0 form, c = mainContext c0 form →
            handlerMain env w c0 form
              = ⟨.ret (some (.new "route type not implemented")),
                  (processText env w c).trace, (processText env w c).world⟩) := by
    intro w0 ret tr hq heq
    have h' := h
    rw [heq] at h'
    obtain ⟨w', inp, herr, hinp, hfil, himp⟩ :=
      persistAndRoute_persisted env w0 in3 si ret pname' route' tr hq inp0 reply pname route h'
    refine ⟨w', inp, herr, hinp, by rw [heq]; exact hfil, fun hne => ?_⟩
    obtain ⟨hres, hquiet⟩ := himp hne
    rw [← heq] at hres hquiet
    refine ⟨hres, hquiet, ?_⟩
    intro c0 form hc
    subst hc
    simp only [handlerMain, hres]
  by_cases hE : e3 ≠ none ∧ e3 ≠ some .ErrMissingPackage
  · exfalso
    rw [hrun, if_pos hE] at h
    exact absurd h (save_not_mem_callTrace _ _ _ _ _ _ _ _ _ _ _ _ _ _ _ _ _ _ _)
  · rw [if_neg hE] at hrun
    by_cases hr : reply'.length = 0
    · rw [if_pos hr] at hrun
      refine finish _ _ _ ?_ hrun
      intro ev hev
      rcases List.mem_append.mp hev with h1 | h1
      · exact ⟨(hct ev h1).2.1, (hct ev h1).2.2.1, (hct ev h1).2.2.2.1, (hct ev h1).2.2.2.2⟩
      · simp only [List.mem_singleton] at h1
        subst h1
        simp [Event.isSave, Event.isRoute, Event.isSend, Event.isHtml]
    · rw [if_neg hr] at hrun
      refine finish _ _ _ ?_ hrun
      intro ev hev
      exact ⟨(hct ev hev).2.1, (hct ev hev).2.2.1, (hct ev hev).2.2.2.1, (hct ev hev).2.2.2.2⟩

/-- A run that passed `validateParams` starts with the trace up to `callPkg`;
what follows holds no `classify` event. -/
theorem processText_trace_split (env : Env σ SI U M R) (w : σ) (c : Context) (cmd : GoString)
    (hcmd : c .cmd = .str cmd) (hlen : cmd.length ≠ 0)
    (hg : trainGuard env.unicodeLower cmd = some false)
    {uid fidT : Int} {fid : GoString}
    (hv : validateParams env.atoiFunc c = .ret (uid, fid, fidT, none)) :
    ∃ (si : SI) (e0 : Option GoError) (u : U) (e1 : Option GoError) (in1 : Input SI)
      (msg : M) (ca : Bool) (e2 : Option GoError) (reply pname : GoString) (route : R)
      (e3 : Option GoError) (rest : List (Event SI U M R)),
      (processText env w c).trace
        = callTrace cmd si e0 ⟨si, uid, fid, fidT⟩ u e1 in1 msg ca e2 reply pname route e3
            ++ rest ∧
      ∀ cmd' si' e', Event.classify cmd' si' e' ∉ rest := by
  obtain ⟨si, e0, u, e1, in1, msg, ca, e2, reply, pname, route, e3, in3, hcase⟩ :=
    processText_cases env w c cmd hcmd hlen hg hv
  refine ⟨si, e0, u, e1, in1, msg, ca, e2, reply, pname, route, e3, ?_⟩
  rcases hcase with ⟨-, -, htr, -⟩ | ⟨-, ret, pre, hpre, es, in4, hend⟩
  · exact ⟨[], by simp [htr], by simp⟩
  · have hnp : ∀ cmd' si' e', Event.classify cmd' si' e' ∉ pre := by
      intro cmd' si' e'
      rcases hpre with ⟨-, rfl⟩ | ⟨-, rfl, -⟩ <;> simp
    rcases hend with ⟨-, htr, -⟩ | ⟨-, -, htr, -⟩ | ⟨-, -, er, htr, -⟩
    · refine ⟨_, by rw [htr, List.append_assoc], ?_⟩
      intro cmd' si' e'
      simp [hnp]
    · refine ⟨_, by rw [htr, List.append_assoc, List.append_assoc], ?_⟩
      intro cmd' si' e'
      simp [hnp]
    · refine ⟨_, by rw [htr, List.append_assoc, List.append_assoc], ?_⟩
      intro cmd' si' e'
      simp [hnp]

/-- C8 (as the code has it): when `classify` returns an error, `processText`
logs it and goes on to `validateParams`; when that succeeds, the user is
resolved, the context merged and the package called. -/
theorem processText_classify_error (env : Env σ SI U M R) (w : σ) (c : Context)
    (cmd : GoString) (si : SI) (e : GoError)
    (h : Event.classify cmd si (some e) ∈ (processText env w c).trace) :
    Event.log "classifying sentence" ∈ (processText env w c).trace ∧
    Event.validateParams ∈ (processText env w c).trace ∧
    ∀ uid fid fidT, validateParams env.atoiFunc c = .ret (uid, fid, fidT, none) →
      ∃ in0 u e1 in1 msg ca e2 reply pname route e3,
        Event.getUser in0 u e1 ∈ (processText env w c).trace ∧
        Event.addContext u in1 msg ca e2 ∈ (processText env w c).trace ∧
        Event.callPkg msg ca reply pname route e3 ∈ (processText env w c).trace := by
  have hlog : ∀ (cmd' : GoString) (si' : SI) (e0 : Option GoError),
      (Event.classify cmd si (some e) : Event SI U M R) ∈ entryTrace cmd' si' e0 →
      (Event.log "classifying sentence" : Event SI U M R) ∈ entryTrace cmd' si' e0 ∧
      (Event.validateParams : Event SI U M R) ∈ entryTrace cmd' si' e0 := by
    intro cmd' si' e0 hin
    rw [classify_mem_entryTrace] at hin
    obtain ⟨-, -, rfl⟩ := hin
    simp [entryTrace]
  rcases processText_shape env w c with hA | ⟨cmd', hcmd, hlen, hg⟩
  · have := hA _ h
    simp [Event.isTrain] at this
  · by_cases hv : ∃ uid fid fidT, validateParams env.atoiFunc c = .ret (uid, fid, fidT, none)
    · obtain ⟨uid, fid, fidT, hv⟩ := hv
      obtain ⟨si', e0, u, e1, in1, msg, ca, e2, reply, pname, route, e3, rest, htr, hrest⟩ :=
        processText_trace_split env w c cmd' hcmd hlen hg hv
      rw [htr] at h ⊢
      have hin : (Event.classify cmd si (some e) : Event SI U M R) ∈ entryTrace cmd' si' e0 := by
        rcases List.mem_append.mp h with h1 | h1
        · unfold callTrace at h1
          simp only [List.mem_append, List.mem_singleton, reduceCtorEq, or_false] at h1
          rcases h1 with (h1 | h1) | h1
          · exact h1
          · split_ifs at h1 <;> simp at h1
          · split_ifs at h1 <;> simp at h1
        · exact absurd h1 (hrest _ _ _)
      obtain ⟨h1, h2⟩ := hlog _ _ _ hin
      refine ⟨?_, ?_, ?_⟩
      · simp [callTrace, h1]
      · simp [callTrace, h2]
      · intro _ _ _ _
        exact ⟨⟨si', uid, fid, fidT⟩, u, e1, in1, msg, ca, e2, reply, pname, route, e3,
          by simp [callTrace], by simp [callTrace], by simp [callTrace]⟩
    · have hv' : ∀ uid fid fidT, validateParams env.atoiFunc c ≠ .ret (uid, fid, fidT, none) :=
        fun uid fid fidT hh => hv ⟨uid, fid, fidT, hh⟩
      rw [processText_stop env w c cmd' hcmd hlen hg hv'] at h ⊢
      obtain ⟨h1, h2⟩ := hlog _ _ _ h
      exact ⟨h1, h2, fun uid fid fidT hh => absurd hh (hv' uid fid fidT)⟩

/-- C5 (as the code has it): when `callPkg` fails with an error other than
`ErrMissingPackage`, `processText` returns the reply of `callPkg` together with
that error at once: no fallback reply is asked for, the turn is not persisted
and nothing is routed or sent. -/
theorem processText_package_error (env : Env σ SI U M R) (w : σ) (c : Context)
    (m : M) (ca : Bool) (reply pname : GoString) (route : R) (e : GoError)
    (h : Event.callPkg m ca reply pname route (some e) ∈ (processText env w c).trace)
    (hne : e ≠ .ErrMissingPackage) :
    (processText env w c).result = .ret (reply, some e) ∧
    ∀ ev ∈ (processText env w c).trace,
      ev.isConfused = false ∧ ev.isSave = false ∧ ev.isRoute = false ∧ ev.isSend = false := by
  rcases processText_shape env w c with hA | ⟨cmd, hcmd, hlen, hg⟩
  · have := hA _ h
    simp [Event.isTrain] at this
  · by_cases hv : ∃ uid fid fidT, validateParams env.atoiFunc c = .ret (uid, fid, fidT, none)
    · obtain ⟨uid, fid, fidT, hv⟩ := hv
      rcases hcl : env.classify w cmd with ⟨si, e0, w1⟩
      rcases hgu : env.getUser w1 ⟨si, uid, fid, fidT⟩ with ⟨u, e1, in1, w2⟩
      rcases hac : env.addContext w2 u in1 with ⟨msg, ca', e2, in2, w3⟩
      rcases hcp : env.callPkg w3 msg ca' in2 with ⟨reply', pname', route', e3, in3, w4⟩
      rw [processText_dispatch env w c cmd hcmd hlen hg hv hcl hgu hac hcp] at h ⊢
      by_cases hE : e3 ≠ none ∧ e3 ≠ some .ErrMissingPackage
      · rw [if_pos hE] at h ⊢
        simp only [callPkg_mem_callTrace] at h
        obtain ⟨-, -, rfl, -, -, rfl⟩ := h
        refine ⟨rfl, fun ev hev => ?_⟩
        have := callTrace_quiet _ _ _ _ _ _ _ _ _ _ _ _ _ _ ev hev
        tauto
      · rw [if_neg hE] at h
        exfalso
        have hE' : e3 = none ∨ e3 = some .ErrMissingPackage := by tauto
        have hmem : ∀ (tr : List (Event SI U M R)) (w' : σ) (ret : GoString),
            (∀ ev ∈ tr, ev.isCallPkg = true →
              ev = .callPkg msg ca' reply' pname' route' e3) →
            Event.callPkg m ca reply pname route (some e)
              ∈ (persistAndRoute env w' in3 si ret pname' route' tr).trace → False := by
          intro tr w' ret htr hin
          rcases hsv : env.saveStructuredInput w' { in3 with StructuredInput := si } ret
            pname' route' with ⟨es, in4, w5⟩
          rw [persistAndRoute_run env w' in3 si ret pname' route' tr hsv] at hin
          have hin2 : Event.callPkg m ca reply pname route (some e) ∈ tr := by
            split_ifs at hin <;> simpa using hin
          have := htr _ hin2 rfl
          simp only [Event.callPkg.injEq] at this
          rcases hE' with h0 | h0
          · rw [h0] at this; simp at this
          · rw [h0] at this
            simp only [Option.some.injEq] at this
            exact hne this.2.2.2.2.2
        have hct : ∀ ev ∈ callTrace cmd si e0 ⟨si, uid, fid, fidT⟩ u e1 in1 msg ca' e2
            reply' pname' route' e3, ev.isCallPkg = true →
              ev = .callPkg msg ca' reply' pname' route' e3 := by
          intro ev hev hk
          cases ev <;> simp [Event.isCallPkg] at hk
          rw [callPkg_mem_callTrace] at hev
          obtain ⟨rfl, rfl, rfl, rfl, rfl, rfl⟩ := hev
          rfl
        split_ifs at h
        · refine hmem _ _ _ ?_ h
          intro ev hev hk
          rcases List.mem_append.mp hev with h1 | h1
          · exact hct ev h1 hk
          · simp at h1; subst h1; simp [Event.isCallPkg] at hk
        · exact hmem _ _ _ hct h
    · have hv' : ∀ uid fid fidT, validateParams env.atoiFunc c ≠ .ret (uid, fid, fidT, none) :=
        fun uid fid fidT hh => hv ⟨uid, fid, fidT, hh⟩
      rw [processText_stop env w c cmd hcmd hlen hg hv'] at h
      have := (entryTrace_quiet _ _ _ _ h).1
      simp [Event.isCallPkg] at this

/-! ## Runs of the concrete world -/

theorem processText_missing_package_witness :
    Event.callPkg () false [] [] () (some .ErrMissingPackage)
      ∈ (processText envMissing 0 phoneRequest).trace ∧
    ∃ (canned : GoString) (inp : Input Unit) (es er : Option GoError),
      Event.confused canned ∈ (processText envMissing 0 phoneRequest).trace ∧
      (processText envMissing 0 phoneRequest).trace.filter Event.isSave
        = [.save inp canned [] () es] ∧
      (processText envMissing 0 phoneRequest).result = .ret (canned, er) :=
  ⟨by decide, processText_missing_package envMissing 0 phoneRequest () false () (by decide)⟩

/-- C4 refuted: the web request `hello` is computed and persisted, the channel
is not the phone channel, and `processText` returns the reply with a non-nil
error; `handlerMain` returns that error and writes no response body. -/
theorem web_reply_not_returned :
    Event.save ⟨(), 0, ascii "session-9", 1⟩ (ascii "hi") (ascii "greeter") () none
      ∈ (processText (testEnv {}) 0 webRequest).trace ∧
    (1 : Int) ≠ (testEnv {}).FlexIdTypePhone ∧
    (processText (testEnv {}) 0 webRequest).result
      = .ret (ascii "hi", some (.new "route type not implemented")) ∧
    (handlerMain (testEnv {}) 0 Context.empty webForm).result
      = .ret (some (.new "route type not implemented")) ∧
    (handlerMain (testEnv {}) 0 Context.empty webForm).trace.any Event.isHtml = false := by
  decide

theorem processText_web_route_witness :
    Event.save ⟨(), 0, ascii "session-9", 1⟩ (ascii "hi") (ascii "greeter") () none
      ∈ (processText (testEnv {}) 0 webRequest).trace ∧
    (processText (testEnv {}) 0 webRequest).trace.filter Event.isRoute
      = [.routeResponse ⟨(), 0, ascii "session-9", 1⟩ (ascii "hi")] ∧
    (processText (testEnv {}) 0 webRequest).result
      = .ret (ascii "hi", some (.new "route type not implemented")) ∧
    handlerMain (testEnv {}) 0 Context.empty webForm
      = ⟨.ret (some (.new "route type not implemented")),
          (processText (testEnv {}) 0 webRequest).trace,
          (processText (testEnv {}) 0 webRequest).world⟩ := by
  obtain ⟨w', inp, -, hinp, hfil, himp⟩ := processText_web_route (testEnv {}) 0 webRequest
    ⟨(), 0, ascii "session-9", 1⟩ (ascii "hi") (ascii "greeter") () (by decide)
  have hrec : inp = ⟨(), 0, ascii "session-9", 1⟩ := hinp
  subst hrec
  have key := himp (by decide)
  exact ⟨by decide, hfil, key.1, key.2.2 Context.empty webForm rfl⟩

/-- C5 refuted: the package call times out (an error that is not
`ErrMissingPackage`) and `processText` returns that error with the empty reply;
no fallback reply is asked for and the turn is not persisted. -/
theorem package_timeout_propagated :
    Event.callPkg () false [] (ascii "greeter") () (some (.foreign 1))
      ∈ (processText envTimeout 0 phoneRequest).trace ∧
    GoError.foreign 1 ≠ GoError.ErrMissingPackage ∧
    (processText envTimeout 0 phoneRequest).result = .ret ([], some (.foreign 1)) ∧
    (processText envTimeout 0 phoneRequest).trace.any Event.isConfused = false ∧
    (processText envTimeout 0 phoneRequest).trace.any Event.isSave = false := by
  decide

theorem processText_package_error_witness :
    Event.callPkg () false [] (ascii "greeter") () (some (.foreign 1))
      ∈ (processText envTimeout 0 phoneRequest).trace ∧
    (processText envTimeout 0 phoneRequest).result = .ret ([], some (.foreign 1)) ∧
    ∀ ev ∈ (processText envTimeout 0 phoneRequest).trace,
      ev.isConfused = false ∧ ev.isSave = false ∧ ev.isRoute = false ∧ ev.isSend = false :=
  ⟨by decide,
    processText_package_error envTimeout 0 phoneRequest () false [] (ascii "greeter") ()
      (.foreign 1) (by decide) (by decide)⟩

/-- C6 refuted: `saveStructuredInput` fails, `routeResponse` is not called, and
the error `processText` returns is the persistence error. -/
theorem save_failure_returned :
    Event.save ⟨(), 0, ascii "+15550100", 2⟩ (ascii "hi") (ascii "greeter") ()
        (some (.foreign 2))
      ∈ (processText envSaveDown 0 phoneRequest).trace ∧
    (processText envSaveDown 0 phoneRequest).result = .ret (ascii "hi", some (.foreign 2)) ∧
    (processText envSaveDown 0 phoneRequest).trace.any Event.isRoute = false := by
  decide

theorem processText_save_error_witness :
    Event.save ⟨(), 0, ascii "+15550100", 2⟩ (ascii "hi") (ascii "greeter") ()
        (some (.foreign 2))
      ∈ (processText envSaveDown 0 phoneRequest).trace ∧
    (processText envSaveDown 0 phoneRequest).result = .ret (ascii "hi", some (.foreign 2)) ∧
    ∀ ev ∈ (processText envSaveDown 0 phoneRequest).trace,
      ev.isRoute = false ∧ ev.isSend = false :=
  ⟨by decide,
    processText_save_error envSaveDown 0 phoneRequest ⟨(), 0, ascii "+15550100", 2⟩
      (ascii "hi") (ascii "greeter") () (.foreign 2) (by decide)⟩

/-- C8 refuted: `classify` fails, and `processText` still calls the package,
persists the turn, routes the reply and returns it with a nil error. -/
theorem classify_failure_ignored :
    Event.classify (ascii "hello") () (some (.foreign 3))
      ∈ (processText envUntrained 0 phoneRequest).trace ∧
    (processText envUntrained 0 phoneRequest).result = .ret (ascii "hi", none) ∧
    (processText envUntrained 0 phoneRequest).trace.any Event.isCallPkg = true ∧
    (processText envUntrained 0 phoneRequest).trace.any Event.isSave = true ∧
    (processText envUntrained 0 phoneRequest).trace.any Event.isRoute = true := by
  decide

theorem processText_classify_error_witness :
    Event.classify (ascii "hello") () (some (.foreign 3))
      ∈ (processText envUntrained 0 phoneRequest).trace ∧
    validateParams envUntrained.atoiFunc phoneRequest
      = .ret (0, ascii "+15550100", 2, none) ∧
    Event.log "classifying sentence" ∈ (processText envUntrained 0 phoneRequest).trace ∧
    ∃ in0 u e1 in1 msg ca e2 reply pname route e3,
      Event.getUser in0 u e1 ∈ (processText envUntrained 0 phoneRequest).trace ∧
      Event.addContext u in1 msg ca e2 ∈ (processText envUntrained 0 phoneRequest).trace ∧
      Event.callPkg msg ca reply pname route e3
        ∈ (processText envUntrained 0 phoneRequest).trace :=
  have key := processText_classify_error envUntrained 0 phoneRequest (ascii "hello") ()
    (.foreign 3) (by decide)
  ⟨by decide, by decide, key.1, key.2.2 0 (ascii "+15550100") 2 (by decide)⟩

end Claims

end Ava
